import Mathlib

/-!
Verification development for the securepass credential manager.

The TypeScript sources are shallowly embedded:
* ISO-8601 timestamp strings produced by `new Date().toISOString()` and the
  millisecond clock `Date.now()` are modelled as `Nat` instants; every
  operation that reads the clock takes the current instant `now : Nat`
  explicitly.
* JavaScript numbers used by the strength heuristic are IEEE-754 binary64
  doubles; the one float computation the heuristic performs,
  `password.length * 0.7`, is modelled bit-exactly: `0.7` is the double
  `3152519739159347 · 2⁻⁵²` and the product is rounded to nearest, ties to
  even (`jsMul07`), its exact rational value compared against the integer
  distinct-character count.  The model agrees with binary64 for every
  length below 2⁵³ (string lengths are at most 2³¹ − 1 in JavaScript).
* `undefined`-able values are `Option`s; code that can throw returns `Except`.
* Strings are Lean `String`s (sequences of code points); the sources only
  ever build passwords and search terms out of ASCII, where the two string
  models agree.
-/

namespace SecurePass

/-- Plain serialized record shape (interface `IPasswordEntry`,
src/unnamed/part_001 lines 17-41).  `notes?` is optional. -/
structure IPasswordEntry where
  id : String
  website : String
  username : String
  password : String
  notes : Option String
  createdAt : Nat
  updatedAt : Nat
deriving Repr, DecidableEq

/-- Class `PasswordEntry` (src/unnamed/part_001 lines 73-116).  Same fields
as the interface; `id` and `createdAt` are declared `readonly` in the source. -/
structure PasswordEntry where
  id : String
  website : String
  username : String
  password : String
  notes : Option String
  createdAt : Nat
  updatedAt : Nat
deriving Repr, DecidableEq

/-- The `PasswordEntry` constructor (src/unnamed/part_001 lines 100-116).
`this.id = id || Date.now().toString()`: a missing or empty (falsy) `id`
argument is replaced by the decimal rendering of the millisecond clock.
`createdAt` and `updatedAt` are both set from `new Date().toISOString()`,
modelled by the same instant `now`. -/
def PasswordEntry.construct (website username password : String)
    (notes : Option String) (id? : Option String) (now : Nat) : PasswordEntry :=
  { id := match id? with
      | some i => if i = "" then Nat.repr now else i
      | none => Nat.repr now
    website := website
    username := username
    password := password
    notes := notes
    createdAt := now
    updatedAt := now }

/-- Partial update payload
`Partial<Pick<IPasswordEntry, 'website' | 'username' | 'password' | 'notes'>>`:
each field is either absent (`none`) or present with a string value. -/
structure UpdateData where
  website : Option String
  username : Option String
  password : Option String
  notes : Option String
deriving Repr, DecidableEq

/-- `PasswordEntry.update` (src/unnamed/part_001 lines 129-137): each field
guarded by an explicit `!== undefined` check, then
`this.updatedAt = new Date().toISOString()`. -/
def PasswordEntry.update (e : PasswordEntry) (d : UpdateData) (now : Nat) :
    PasswordEntry :=
  { e with
    website := match d.website with | some w => w | none => e.website
    username := match d.username with | some u => u | none => e.username
    password := match d.password with | some p => p | none => e.password
    notes := match d.notes with | some n => some n | none => e.notes
    updatedAt := now }

/-- `PasswordEntry.toJSON` (src/unnamed/part_001 lines 150-160): full field
snapshot. -/
def PasswordEntry.toJSON (e : PasswordEntry) : IPasswordEntry :=
  { id := e.id
    website := e.website
    username := e.username
    password := e.password
    notes := e.notes
    createdAt := e.createdAt
    updatedAt := e.updatedAt }

/-- `PasswordEntry.fromJSON` (src/unnamed/part_001 lines 174-185): runs the
constructor on the stored fields (which stamps `createdAt`/`updatedAt` with
the clock at reconstruction time) and then restores `entry.updatedAt` from
the stored data.  Note the constructor, not this factory, decides
`createdAt`. -/
def PasswordEntry.fromJSON (data : IPasswordEntry) (now : Nat) : PasswordEntry :=
  let entry := PasswordEntry.construct data.website data.username data.password
    data.notes (some data.id) now
  { entry with updatedAt := data.updatedAt }

/-! ### Secure generator (src/src/services/PasswordGenerator.ts) -/

/-- Generation policy (interface `IPasswordGeneratorOptions`,
src/unnamed/part_001 lines 51-62). -/
structure IPasswordGeneratorOptions where
  length : Nat
  includeUppercase : Bool
  includeLowercase : Bool
  includeNumbers : Bool
  includeSymbols : Bool
deriving Repr, DecidableEq

/-- `/[a-z]/.test password` -/
def isLowerAlpha (c : Char) : Bool := 'a' ≤ c && c ≤ 'z'

/-- `/[A-Z]/.test password` -/
def isUpperAlpha (c : Char) : Bool := 'A' ≤ c && c ≤ 'Z'

/-- `/[0-9]/.test password` -/
def isDigitChar (c : Char) : Bool := '0' ≤ c && c ≤ '9'

/-- `/[^a-zA-Z0-9]/.test password` -/
def isNonAlphanumeric (c : Char) : Bool :=
  !(isLowerAlpha c || isUpperAlpha c || isDigitChar c)

/-- One guarded accumulation statement `if (cond) score += points`. -/
def applyBonus (score : Nat) (cond : Prop) [Decidable cond] (points : Nat) : Nat :=
  if cond then score + points else score

/-- The significand of the IEEE-754 binary64 number nearest to 0.7:
`0.7` parses to the double `fl07num · 2⁻⁵² = 7/10 − 1/(5·2⁵²)`
(certified by `fl07num_value` and `fl07num_is_nearest_double`). -/
def fl07num : Nat := 3152519739159347

/-- Round `x / d` to the nearest integer, ties to even (`d` a power of two
≥ 2): the rounding step of IEEE-754 round-to-nearest. -/
def roundHalfEven (x d : Nat) : Nat :=
  let q := x / d
  let r := x % d
  if 2 * r < d then q
  else if d < 2 * r then q + 1
  else if q % 2 = 0 then q else q + 1

/-- Fuel-driven floor of log₂ so that it reduces in the kernel; correctness
certified by `natLog2_spec`. -/
def natLog2Aux : Nat → Nat → Nat
  | 0, _ => 0
  | fuel + 1, n => if 2 ≤ n then natLog2Aux fuel (n / 2) + 1 else 0

/-- `natLog2 n` is the floor of log₂ `n` (and 0 at 0). -/
def natLog2 (n : Nat) : Nat := natLog2Aux n n

/-- The binary64 product `len * 0.7` (as JavaScript computes it for an
integer `len`), returned as its exact rational value: the real product
`len · fl07num / 2⁵²` rounded to 53 significant bits, nearest, ties to
even.  For `len · fl07num < 2⁵³` the product is already representable; no
overflow or subnormal case is reachable for `len < 2⁵³`. -/
def jsMul07 (len : Nat) : ℚ :=
  if len = 0 then 0
  else if natLog2 (len * fl07num) ≤ 52 then ((len * fl07num : Nat) : ℚ) / 2 ^ 52
  else ((roundHalfEven (len * fl07num) (2 ^ (natLog2 (len * fl07num) - 52)) *
    2 ^ (natLog2 (len * fl07num) - 52) : Nat) : ℚ) / 2 ^ 52

/-- The uniqueness-bonus condition `uniqueChars > password.length * 0.7`
as a kernel-computable comparison: same structure as `jsMul07`, numerators
compared against `2⁵² · u` (equivalence proved in `jsMul07_lt_iff`). -/
def uniqBonusCond (len u : Nat) : Bool :=
  if len = 0 then decide (0 < u)
  else if natLog2 (len * fl07num) ≤ 52 then decide (len * fl07num < 2 ^ 52 * u)
  else decide (roundHalfEven (len * fl07num) (2 ^ (natLog2 (len * fl07num) - 52)) *
    2 ^ (natLog2 (len * fl07num) - 52) < 2 ^ 52 * u)

/-- `BasePasswordGenerator.calculateStrength`
(src/src/services/PasswordGenerator.ts lines 55-77).
`new Set(password).size` is the number of distinct code points; the
JavaScript float comparison `uniqueChars > password.length * 0.7` compares
the integer `uniqueChars` (exact as a double below 2⁵³) against the
binary64 product `jsMul07 password.length` — the rounded product is
strictly below the exact `0.7 · len` at some lengths (90, 170, 180, …),
which `calculateStrength` must reproduce. -/
def calculateStrength (password : String) : Nat :=
  if password = "" then 0
  else
    let score : Nat := 0
    let score := applyBonus score (password.length ≥ 8) 20
    let score := applyBonus score (password.length ≥ 12) 10
    let score := applyBonus score (password.length ≥ 16) 10
    let score := applyBonus score (password.toList.any isLowerAlpha) 15
    let score := applyBonus score (password.toList.any isUpperAlpha) 15
    let score := applyBonus score (password.toList.any isDigitChar) 15
    let score := applyBonus score (password.toList.any isNonAlphanumeric) 15
    let uniqueChars := password.toList.dedup.length
    let score := applyBonus score (jsMul07 password.length < (uniqueChars : ℚ)) 10
    min 100 score

/-- `BasePasswordGenerator.getStrengthLevel`
(src/src/services/PasswordGenerator.ts lines 91-96). -/
def getStrengthLevel (strength : Nat) : String :=
  if strength < 30 then "Weak"
  else if strength < 60 then "Fair"
  else if strength < 80 then "Good"
  else "Strong"

/-- Lowercase category string (PasswordGenerator.ts line 171). -/
def lowercaseChars : String := "abcdefghijklmnopqrstuvwxyz"

/-- Uppercase category string (PasswordGenerator.ts line 175). -/
def uppercaseChars : String := "ABCDEFGHIJKLMNOPQRSTUVWXYZ"

/-- Digit category string (PasswordGenerator.ts line 179). -/
def numberChars : String := "0123456789"

/-- Symbol category string (PasswordGenerator.ts line 183). -/
def symbolChars : String := "!@#$%^&*()_+-=[]\x7b\x7d|;:,.<>?"

/-- `SecurePasswordGenerator.getCharacterSet`
(src/src/services/PasswordGenerator.ts lines 166-188): concatenate the
enabled category strings in source order lowercase, uppercase, numbers,
symbols; `return charset || 'abcdefghijklmnopqrstuvwxyz'` falls back to the
lowercase set when the concatenation is empty (falsy). -/
def getCharacterSet (options : IPasswordGeneratorOptions) : String :=
  let charset := ""
  let charset := if options.includeLowercase then charset ++ lowercaseChars else charset
  let charset := if options.includeUppercase then charset ++ uppercaseChars else charset
  let charset := if options.includeNumbers then charset ++ numberChars else charset
  let charset := if options.includeSymbols then charset ++ symbolChars else charset
  if charset = "" then lowercaseChars else charset

/-- `SecurePasswordGenerator.generatePassword`
(src/src/services/PasswordGenerator.ts lines 202-217).
`crypto.getRandomValues` fills a `Uint32Array(options.length)`; the filled
array is modelled by the supply `randoms : Nat → Nat` (position `i` holds
`array[i]`).  Each position appends `charset[array[i] % charset.length]`. -/
def generatePassword (options : IPasswordGeneratorOptions)
    (randoms : Nat → Nat) : String :=
  let charset := (getCharacterSet options).toList
  String.mk ((List.range options.length).map
    (fun i => charset.getD (randoms i % charset.length) 'a'))

/-! ### JavaScript string primitives used by search

Modelled on the code-point list underlying a `String`; the repository only
feeds them ASCII, where they agree with the JavaScript originals. -/

/-- `String.prototype.toLowerCase` on one character (ASCII range). -/
def charToLower (c : Char) : Char :=
  if 'A' ≤ c && c ≤ 'Z' then Char.ofNat (c.toNat + 32) else c

/-- `s.toLowerCase()` -/
def jsToLower (s : String) : String := String.mk (s.toList.map charToLower)

/-- `s.trim()`: strip leading and trailing whitespace. -/
def jsTrim (s : String) : String :=
  String.mk (((s.toList.dropWhile Char.isWhitespace).reverse.dropWhile
    Char.isWhitespace).reverse)

/-- `needle` starts `hay`. -/
def leadsWith : List Char → List Char → Bool
  | [], _ => true
  | _ :: _, [] => false
  | a :: as, b :: bs => a == b && leadsWith as bs

/-- `needle` occurs contiguously inside `hay`. -/
def occursIn (needle hay : List Char) : Bool :=
  leadsWith needle hay ||
    match hay with
    | [] => false
    | _ :: bs => occursIn needle bs

/-- `hay.includes(needle)` -/
def strIncludes (hay needle : String) : Bool := occursIn needle.toList hay.toList

/-! ### Storage services (src/unnamed/part_008) -/

/-- Interface `IStorageService` (src/unnamed/part_008 lines 34-41).
`getPasswords` is the collection the backend currently yields;
`savePasswords` may throw (`Except.error`), e.g. quota exceeded;
`clearPasswords` may throw likewise. -/
structure IStorageService where
  getPasswords : List PasswordEntry
  savePasswords : List PasswordEntry → Except String Unit
  clearPasswords : Except String Unit

/-- `LocalStorageService.savePasswords` (src/unnamed/part_008 lines 150-160):
serializes via `toJSON`, writes through the fallible medium `setItem`
(`localStorage.setItem` under `JSON.stringify`), and catches every error
inside its own `try/catch`, delegating to `handleError`, which only logs —
so this method never throws. -/
def LocalStorageService.savePasswords
    (setItem : List IPasswordEntry → Except String Unit)
    (passwords : List PasswordEntry) : Except String Unit :=
  match setItem (passwords.map PasswordEntry.toJSON) with
  | Except.ok _ => Except.ok ()
  | Except.error _ => Except.ok ()

/-- A `LocalStorageService` viewed through the `IStorageService` contract,
over the fallible write medium `setItem` and whatever `loaded` collection
its `getPasswords` produced. -/
def localStorageBackend (loaded : List PasswordEntry)
    (setItem : List IPasswordEntry → Except String Unit) : IStorageService :=
  { getPasswords := loaded
    savePasswords := LocalStorageService.savePasswords setItem
    clearPasswords := Except.ok () }

/-! ### PasswordManager (src/unnamed/part_007) -/

/-- The manager's in-memory cache `private passwords: PasswordEntry[]`. -/
structure PasswordManager where
  passwords : List PasswordEntry
deriving Repr, DecidableEq

/-- `PasswordManager.getAllPasswords` (src/unnamed/part_007 lines 122-124):
`[...this.passwords]`, a protective copy — value semantics here. -/
def PasswordManager.getAllPasswords (m : PasswordManager) : List PasswordEntry :=
  m.passwords

/-- `PasswordManager.savePasswords` (src/unnamed/part_007 lines 110-112):
delegates to the injected storage service with no `try/catch` of its own,
so an error from the backend propagates to the store operation. -/
def PasswordManager.savePasswords (svc : IStorageService) (m : PasswordManager) :
    Except String Unit :=
  svc.savePasswords m.passwords

/-- `PasswordManager.addPassword` (src/unnamed/part_007 lines 138-152):
constructs the entry (no `id` passed), pushes it onto the cache, then
persists.  The returned state is the cache after the push — it keeps the
mutation whether or not the flush threw; the `Except` carries either the
returned entry or the propagated flush error. -/
def PasswordManager.addPassword (svc : IStorageService) (m : PasswordManager)
    (website username password : String) (notes : Option String) (now : Nat) :
    PasswordManager × Except String PasswordEntry :=
  let newPassword := PasswordEntry.construct website username password notes none now
  let m' : PasswordManager := ⟨m.passwords ++ [newPassword]⟩
  match PasswordManager.savePasswords svc m' with
  | Except.ok _ => (m', Except.ok newPassword)
  | Except.error e => (m', Except.error e)

/-- Mutate, in place, the first entry whose `id` matches — the object
`this.passwords.find(p => p.id === id)` aliases into the array. -/
def updateFirstMatch (ps : List PasswordEntry) (id : String) (d : UpdateData)
    (now : Nat) : List PasswordEntry :=
  match ps with
  | [] => []
  | p :: rest =>
    if p.id = id then p.update d now :: rest
    else p :: updateFirstMatch rest id d now

/-- `PasswordManager.updatePassword` (src/unnamed/part_007 lines 165-178):
`find` by id; absent → `null` with no flush; present → mutate the found
entry, flush, return it.  `Except.ok none` is the `null` result; a flush
error propagates after the in-place mutation. -/
def PasswordManager.updatePassword (svc : IStorageService) (m : PasswordManager)
    (id : String) (d : UpdateData) (now : Nat) :
    PasswordManager × Except String (Option PasswordEntry) :=
  match m.passwords.find? (fun p => p.id = id) with
  | none => (m, Except.ok none)
  | some p =>
    let m' : PasswordManager := ⟨updateFirstMatch m.passwords id d now⟩
    match PasswordManager.savePasswords svc m' with
    | Except.ok _ => (m', Except.ok (some (p.update d now)))
    | Except.error e => (m', Except.error e)

/-- `PasswordManager.deletePassword` (src/unnamed/part_007 lines 190-201):
`this.passwords = this.passwords.filter(p => p.id !== id)` happens before
the length check; a flush only runs (and `true` is only returned) when the
collection shrank. -/
def PasswordManager.deletePassword (svc : IStorageService) (m : PasswordManager)
    (id : String) : PasswordManager × Except String Bool :=
  let remaining := m.passwords.filter (fun p => !(p.id = id))
  let m' : PasswordManager := ⟨remaining⟩
  if remaining.length < m.passwords.length then
    match PasswordManager.savePasswords svc m' with
    | Except.ok _ => (m', Except.ok true)
    | Except.error e => (m', Except.error e)
  else (m', Except.ok false)

/-- `PasswordManager.searchPasswords` (src/unnamed/part_007 lines 216-228):
falsy trimmed term → `getAllPasswords()`; otherwise case-insensitive
substring match over `website` and `username`. -/
def PasswordManager.searchPasswords (m : PasswordManager) (searchTerm : String) :
    List PasswordEntry :=
  if jsTrim searchTerm = "" then m.getAllPasswords
  else
    let term := jsToLower searchTerm
    m.passwords.filter (fun password =>
      strIncludes (jsToLower password.website) term ||
      strIncludes (jsToLower password.username) term)

/-- `PasswordManager.getPasswordById` (src/unnamed/part_007 lines 239-241). -/
def PasswordManager.getPasswordById (m : PasswordManager) (id : String) :
    Option PasswordEntry :=
  m.passwords.find? (fun p => p.id = id)

/-- `PasswordAPIService.searchPasswords` (src/unnamed/part_009 lines 65-75):
client-side filter over the fetched list; unlike the local manager it also
matches `notes?.toLowerCase().includes(term)` (optional chaining, absent
notes are falsy). -/
def PasswordAPIService.searchPasswords (allPasswords : List PasswordEntry)
    (searchTerm : String) : List PasswordEntry :=
  if jsTrim searchTerm = "" then allPasswords
  else
    let lowerSearchTerm := jsToLower searchTerm
    allPasswords.filter (fun password =>
      strIncludes (jsToLower password.website) lowerSearchTerm ||
      strIncludes (jsToLower password.username) lowerSearchTerm ||
      (match password.notes with
        | some n => strIncludes (jsToLower n) lowerSearchTerm
        | none => false))

/-! ### Specification-side definitions and concrete fixtures -/

/-- Evaluation form of `calculateStrength`: the same additive heuristic with
the binary64 uniqueness comparison phrased through the kernel-computable
`uniqBonusCond`, so that concrete scores reduce in the kernel.  Proven
equal to `calculateStrength` in `calculateStrength_eval`. -/
def strengthEval (p : String) : Nat :=
  if p = "" then 0
  else
    min 100 ((if p.length ≥ 8 then 20 else 0) + (if p.length ≥ 12 then 10 else 0) +
      (if p.length ≥ 16 then 10 else 0) +
      (if p.toList.any isLowerAlpha then 15 else 0) +
      (if p.toList.any isUpperAlpha then 15 else 0) +
      (if p.toList.any isDigitChar then 15 else 0) +
      (if p.toList.any isNonAlphanumeric then 15 else 0) +
      (if uniqBonusCond p.length p.toList.dedup.length then 10 else 0))

/-- The additive heuristic exactly as the specification words it: stacking
length bonuses at 8/12/16, +15 per character class present, +10 when the
distinct-character count exceeds 70% of the length, the sum clamped to
[0, 100] (the clamp below 0 is vacuous over `Nat`). -/
def claimStrength (p : String) : Nat :=
  min 100 ((if p.length ≥ 8 then 20 else 0) + (if p.length ≥ 12 then 10 else 0) +
    (if p.length ≥ 16 then 10 else 0) +
    (if p.toList.any isLowerAlpha then 15 else 0) +
    (if p.toList.any isUpperAlpha then 15 else 0) +
    (if p.toList.any isDigitChar then 15 else 0) +
    (if p.toList.any isNonAlphanumeric then 15 else 0) +
    (if (70 : ℚ) / 100 * (p.length : ℚ) < (p.toList.dedup.length : ℚ) then 10 else 0))

/-- The C7 claim amended: the specification's additive heuristic, identical
to `claimStrength` except that the uniqueness bonus compares the distinct
count against the binary64 product `length * 0.7` — the comparison the
program actually performs — instead of the exact 70% of the length. -/
def claimStrengthJs (p : String) : Nat :=
  min 100 ((if p.length ≥ 8 then 20 else 0) + (if p.length ≥ 12 then 10 else 0) +
    (if p.length ≥ 16 then 10 else 0) +
    (if p.toList.any isLowerAlpha then 15 else 0) +
    (if p.toList.any isUpperAlpha then 15 else 0) +
    (if p.toList.any isDigitChar then 15 else 0) +
    (if p.toList.any isNonAlphanumeric then 15 else 0) +
    (if jsMul07 p.length < (p.toList.dedup.length : ℚ) then 10 else 0))

/-- Length-90 ASCII password with exactly 63 distinct characters (27 extra
copies of 'a', the 26 lowercase and 26 uppercase letters, 11 symbols):
63 is exactly 70% of 90, but binary64 computes `90 * 0.7 =
62.99999999999999289…`, so the program awards the +10 uniqueness bonus
where the exact heuristic does not. -/
def password90 : String :=
  "aaaaaaaaaaaaaaaaaaaaaaaaaaaabcdefghijklmnopqrstuvwxyzABCDEFGHIJKLMNOPQRSTUVWXYZ!@#$%^&*()_"

/-- Specification wording for search: the record field contains the term as
a case-insensitive substring. -/
def ciContains (field term : String) : Bool :=
  strIncludes (jsToLower field) (jsToLower term)

/-- What the specification asserts about one `update` call: present fields
overwrite (empty string included), absent fields are untouched, `id` and
`createdAt` are stable, `updatedAt` becomes the call instant; and an empty
partial leaves every content field unchanged. -/
def UpdateClaimHolds (e : PasswordEntry) (d : UpdateData) (now : Nat) : Prop :=
  ((e.update d now).website = match d.website with | some w => w | none => e.website)
  ∧ ((e.update d now).username = match d.username with | some u => u | none => e.username)
  ∧ ((e.update d now).password = match d.password with | some p => p | none => e.password)
  ∧ ((e.update d now).notes = match d.notes with | some n => some n | none => e.notes)
  ∧ (e.update d now).updatedAt = now
  ∧ (e.update d now).id = e.id
  ∧ (e.update d now).createdAt = e.createdAt
  ∧ (e.update ⟨none, none, none, none⟩ now).website = e.website
  ∧ (e.update ⟨none, none, none, none⟩ now).username = e.username
  ∧ (e.update ⟨none, none, none, none⟩ now).password = e.password
  ∧ (e.update ⟨none, none, none, none⟩ now).notes = e.notes
  ∧ e.updatedAt ≤ (e.update d now).updatedAt

/-- A record whose `notes`, but neither `website` nor `username`, contain
the term "git". -/
def noteEntry : PasswordEntry :=
  { id := "1", website := "aaa", username := "bbb", password := "p"
    notes := some "git", createdAt := 0, updatedAt := 0 }

/-- A backend whose write always succeeds. -/
def okBackend : IStorageService :=
  { getPasswords := []
    savePasswords := fun _ => Except.ok ()
    clearPasswords := Except.ok () }

/-- A backend whose write always throws (e.g. quota exceeded), satisfying
the `IStorageService` contract. -/
def throwingBackend : IStorageService :=
  { getPasswords := []
    savePasswords := fun _ => Except.error "QuotaExceededError"
    clearPasswords := Except.ok () }

/-- Concrete entry for witnesses: constructed at instant 3. -/
def witnessEntry : PasswordEntry := PasswordEntry.construct "w.com" "u" "p" none none 3

/-- Concrete partial for witnesses: sets `website` to the empty string and
`password` to "x", leaves the other fields absent. -/
def witnessPartial : UpdateData := ⟨some "", none, some "x", none⟩

/-! ### Helper lemmas -/

theorem applyBonus_eq (score : Nat) (cond : Prop) [Decidable cond] (points : Nat) :
    applyBonus score cond points = score + if cond then points else 0 := by
  unfold applyBonus
  split_ifs <;> omega

/-- `fl07num · 2⁻⁵²` is exactly `7/10 − 1/(5·2⁵²)`. -/
theorem fl07num_value : (fl07num : ℚ) / 2 ^ 52 = 7 / 10 - 1 / (5 * 2 ^ 52) := by
  norm_num [fl07num]

/-- `fl07num · 2⁻⁵²` really is the binary64 neighbour nearest to 0.7: `7/10`
lies strictly between `fl07num · 2⁻⁵²` and `(fl07num + 1) · 2⁻⁵²`, closer
to the former. -/
theorem fl07num_is_nearest_double :
    (fl07num : ℚ) / 2 ^ 52 < 7 / 10
    ∧ 7 / 10 < ((fl07num + 1 : Nat) : ℚ) / 2 ^ 52
    ∧ 7 / 10 - (fl07num : ℚ) / 2 ^ 52 < ((fl07num + 1 : Nat) : ℚ) / 2 ^ 52 - 7 / 10 := by
  refine ⟨by norm_num [fl07num], by norm_num [fl07num], by norm_num [fl07num]⟩

theorem natLog2Aux_spec : ∀ (fuel n : Nat), 1 ≤ n → n ≤ fuel →
    2 ^ natLog2Aux fuel n ≤ n ∧ n < 2 ^ (natLog2Aux fuel n + 1) := by
  intro fuel
  induction fuel with
  | zero => intro n h1 h2; omega
  | succ fuel ih =>
    intro n h1 h2
    show 2 ^ (if 2 ≤ n then natLog2Aux fuel (n / 2) + 1 else 0) ≤ n
      ∧ n < 2 ^ ((if 2 ≤ n then natLog2Aux fuel (n / 2) + 1 else 0) + 1)
    by_cases h : 2 ≤ n
    · rw [if_pos h]
      obtain ⟨ha, hb⟩ := ih (n / 2) (by omega) (by omega)
      have e1 : 2 ^ (natLog2Aux fuel (n / 2) + 1) =
          2 * 2 ^ natLog2Aux fuel (n / 2) := by ring
      have e2 : 2 ^ (natLog2Aux fuel (n / 2) + 1 + 1) =
          2 * 2 ^ (natLog2Aux fuel (n / 2) + 1) := by ring
      omega
    · rw [if_neg h]
      omega

/-- `natLog2` is the floor of log₂. -/
theorem natLog2_spec (n : Nat) (h : 1 ≤ n) :
    2 ^ natLog2 n ≤ n ∧ n < 2 ^ (natLog2 n + 1) :=
  natLog2Aux_spec n n h (Nat.le_refl n)

theorem cast_div_lt_iff (a u : Nat) :
    ((a : ℚ) / 2 ^ 52 < (u : ℚ)) ↔ (a < 2 ^ 52 * u) := by
  rw [div_lt_iff₀ (by positivity)]
  constructor
  · intro h
    have h2 : ((a : Nat) : ℚ) < ((2 ^ 52 * u : Nat) : ℚ) := by push_cast; linarith
    exact_mod_cast h2
  · intro h
    have h2 : ((a : Nat) : ℚ) < ((2 ^ 52 * u : Nat) : ℚ) := by exact_mod_cast h
    push_cast at h2; linarith

/-- The value-level binary64 comparison of the source coincides with the
kernel-computable `uniqBonusCond`. -/
theorem jsMul07_lt_iff (len u : Nat) :
    (jsMul07 len < (u : ℚ)) ↔ uniqBonusCond len u = true := by
  unfold jsMul07 uniqBonusCond
  by_cases h0 : len = 0
  · rw [if_pos h0, if_pos h0, decide_eq_true_eq]
    exact_mod_cast Nat.cast_pos (α := ℚ)
  · rw [if_neg h0, if_neg h0]
    by_cases hb : natLog2 (len * fl07num) ≤ 52
    · rw [if_pos hb, if_pos hb, decide_eq_true_eq]
      exact cast_div_lt_iff _ u
    · rw [if_neg hb, if_neg hb, decide_eq_true_eq]
      exact cast_div_lt_iff _ u

theorem claim_cond_iff (len u : Nat) :
    ((70 : ℚ) / 100 * (len : ℚ) < (u : ℚ)) ↔ (7 * len < 10 * u) := by
  rw [show ((70:ℚ)/100) = 7 / 10 by norm_num, div_mul_eq_mul_div,
    div_lt_iff₀ (by norm_num : (0:ℚ) < 10)]
  constructor
  · intro h
    have h2 : ((7 * len : Nat) : ℚ) < ((10 * u : Nat) : ℚ) := by push_cast; linarith
    exact_mod_cast h2
  · intro h
    have h2 : ((7 * len : Nat) : ℚ) < ((10 * u : Nat) : ℚ) := by exact_mod_cast h
    push_cast at h2; linarith

theorem calculateStrength_eval (p : String) : calculateStrength p = strengthEval p := by
  unfold calculateStrength strengthEval
  simp only [applyBonus_eq, jsMul07_lt_iff, Nat.zero_add]

theorem digitChar_inj_lt10 (a b : Nat) (ha : a < 10) (hb : b < 10)
    (h : Nat.digitChar a = Nat.digitChar b) : a = b := by
  have key : ∀ x y : Fin 10, Nat.digitChar x.val = Nat.digitChar y.val → x = y := by decide
  exact congrArg Fin.val (key ⟨a, ha⟩ ⟨b, hb⟩ h)

theorem map_digitChar_inj : ∀ (l1 l2 : List Nat), (∀ x ∈ l1, x < 10) →
    (∀ x ∈ l2, x < 10) → l1.map Nat.digitChar = l2.map Nat.digitChar → l1 = l2 := by
  intro l1
  induction l1 with
  | nil => intro l2 _ _ h; cases l2 <;> simp_all
  | cons a as ih =>
    intro l2 h1 h2 h
    cases l2 with
    | nil => simp_all
    | cons b bs =>
      simp only [List.map_cons, List.cons.injEq] at h
      have ha : a < 10 := h1 a (by simp)
      have hb : b < 10 := h2 b (by simp)
      have hab : a = b := digitChar_inj_lt10 a b ha hb h.1
      have htl : as = bs := ih bs (fun x hx => h1 x (by simp [hx]))
        (fun x hx => h2 x (by simp [hx])) h.2
      simp [hab, htl]

theorem toDigitsCore_eq_digits (fuel : Nat) : ∀ (n : Nat) (acc : List Char), n < fuel →
    Nat.toDigitsCore 10 fuel n acc =
      (if n = 0 then ['0'] else (Nat.digits 10 n).reverse.map Nat.digitChar) ++ acc := by
  induction fuel with
  | zero => intro n acc h; omega
  | succ fuel ih =>
    intro n acc h
    show (if n / 10 = 0 then Nat.digitChar (n % 10) :: acc
      else Nat.toDigitsCore 10 fuel (n / 10) (Nat.digitChar (n % 10) :: acc)) = _
    by_cases hn : n = 0
    · subst hn; simp [Nat.digitChar]
    · rw [if_neg hn]
      by_cases hq : n / 10 = 0
      · rw [if_pos hq]
        have hlt : n < 10 := by omega
        rw [Nat.digits_def' (by norm_num : 1 < 10) (Nat.pos_of_ne_zero hn), hq]
        simp [Nat.mod_eq_of_lt hlt]
      · rw [if_neg hq]
        have hdiv_lt : n / 10 < fuel := by
          have : n / 10 < n := Nat.div_lt_self (Nat.pos_of_ne_zero hn) (by norm_num)
          omega
        rw [ih (n / 10) (Nat.digitChar (n % 10) :: acc) hdiv_lt, if_neg hq]
        rw [Nat.digits_def' (by norm_num : 1 < 10) (Nat.pos_of_ne_zero hn)]
        simp

theorem natRepr_eq (n : Nat) :
    Nat.repr n =
      ((if n = 0 then ['0'] else (Nat.digits 10 n).reverse.map Nat.digitChar)).asString := by
  show (Nat.toDigits 10 n).asString = _
  rw [Nat.toDigits, toDigitsCore_eq_digits (n + 1) n [] (by omega), List.append_nil]

theorem natRepr_injective : Function.Injective Nat.repr := by
  intro m n h
  rw [natRepr_eq, natRepr_eq] at h
  have hl : (if m = 0 then ['0'] else (Nat.digits 10 m).reverse.map Nat.digitChar) =
      (if n = 0 then ['0'] else (Nat.digits 10 n).reverse.map Nat.digitChar) := by
    have := congrArg String.data h
    simpa [List.asString] using this
  have zero_case : ∀ k : Nat, k ≠ 0 →
      (Nat.digits 10 k).reverse.map Nat.digitChar = ['0'] → False := by
    intro k hk hmap
    have hrev : (Nat.digits 10 k).reverse = [0] := by
      have hlen : (Nat.digits 10 k).reverse.length = 1 := by
        have := congrArg List.length hmap; simpa using this
      match hrv : (Nat.digits 10 k).reverse with
      | [] => rw [hrv] at hlen; simp at hlen
      | [d] =>
        rw [hrv] at hmap
        simp only [List.map_cons, List.map_nil, List.cons.injEq] at hmap
        have hmem : d ∈ Nat.digits 10 k := by
          have hr : d ∈ (Nat.digits 10 k).reverse := by rw [hrv]; simp
          exact List.mem_reverse.mp hr
        have hd : d < 10 := Nat.digits_lt_base (by norm_num) hmem
        have : d = 0 := digitChar_inj_lt10 d 0 hd (by norm_num) (by simpa using hmap.1)
        simp [this]
      | d1 :: d2 :: rest => rw [hrv] at hlen; simp at hlen
    have hdig : Nat.digits 10 k = [0] := by
      have := congrArg List.reverse hrev; simpa using this
    have : k = 0 := by
      have := Nat.ofDigits_digits 10 k
      rw [hdig] at this
      simpa [Nat.ofDigits] using this.symm
    exact hk this
  by_cases hm : m = 0 <;> by_cases hn : n = 0
  · omega
  · exfalso; rw [if_pos hm, if_neg hn] at hl; exact zero_case n hn hl.symm
  · exfalso; rw [if_neg hm, if_pos hn] at hl; exact zero_case m hm hl
  · rw [if_neg hm, if_neg hn] at hl
    have hrev : (Nat.digits 10 m).reverse = (Nat.digits 10 n).reverse := by
      refine map_digitChar_inj _ _ ?_ ?_ hl <;>
        · intro x hx
          exact Nat.digits_lt_base (by norm_num) (by simpa using hx)
    have hdig : Nat.digits 10 m = Nat.digits 10 n := by
      have := congrArg List.reverse hrev; simpa using this
    calc m = Nat.ofDigits 10 (Nat.digits 10 m) := (Nat.ofDigits_digits 10 m).symm
    _ = Nat.ofDigits 10 (Nat.digits 10 n) := by rw [hdig]
    _ = n := Nat.ofDigits_digits 10 n

theorem getD_mem_of_lt {α : Type} (l : List α) (i : Nat) (d : α)
    (h : i < l.length) : l.getD i d ∈ l := by
  induction l generalizing i with
  | nil => simp at h
  | cons a as ih =>
    cases i with
    | zero => simp [List.getD]
    | succ j =>
      have hj : j < as.length := by simpa using h
      have := ih j hj
      simp only [List.getD] at this ⊢
      simp_all

/-! ### Claim theorems -/

/-- Claim C1 (code bug): the serialize/deserialize round trip does NOT
preserve `createdAt`.  `fromJSON` routes the stored fields through the
constructor, which stamps `createdAt` with the clock at reconstruction
time; only `updatedAt` is restored afterwards.  For a record created at
instant 0 and round-tripped at instant 1, the reconstructed `createdAt` is
1, not 0, while the other fields survive. -/
theorem C1_roundtrip_drops_createdAt :
    (PasswordEntry.fromJSON
      (PasswordEntry.toJSON (PasswordEntry.construct "example.com" "alice" "hunter2" none none 0))
      1).createdAt = 1
    ∧ (PasswordEntry.construct "example.com" "alice" "hunter2" none none 0).createdAt = 0
    ∧ (PasswordEntry.fromJSON
      (PasswordEntry.toJSON (PasswordEntry.construct "example.com" "alice" "hunter2" none none 0))
      1).updatedAt = 0
    ∧ (PasswordEntry.fromJSON
      (PasswordEntry.toJSON (PasswordEntry.construct "example.com" "alice" "hunter2" none none 0))
      1).website = "example.com" := by
  refine ⟨rfl, rfl, rfl, rfl⟩

/-- Claim C2 (code bug): reconstruction breaks `updatedAt ≥ createdAt`.
Deserializing a stored record whose `updatedAt` is 0 at clock instant 5
yields `createdAt = 5` (freshly stamped by the constructor) but
`updatedAt = 0`, so `updatedAt < createdAt`. -/
theorem C2_fromJSON_breaks_timestamp_invariant :
    (PasswordEntry.fromJSON
      ⟨"1", "example.com", "alice", "hunter2", none, 0, 0⟩ 5).updatedAt <
    (PasswordEntry.fromJSON
      ⟨"1", "example.com", "alice", "hunter2", none, 0, 0⟩ 5).createdAt := by
  decide

/-- Claim C3, counterexample: with a backend satisfying the
`IStorageService` contract whose `savePasswords` throws, the error is NOT
caught at the store boundary — `PasswordManager.savePasswords` has no
`try/catch`, so `addPassword` propagates the error instead of returning its
success-shaped result. -/
theorem C3_throwing_backend_error_propagates :
    (PasswordManager.addPassword throwingBackend ⟨[]⟩
      "example.com" "alice" "hunter2" none 0).snd =
    Except.error "QuotaExceededError" := by
  rfl

/-- Claim C3, amended: the flush `try/catch` lives inside
`LocalStorageService.savePasswords`, not in the store.  With that backend
(any fallible write medium), add/update/delete all return success-shaped
results; for an arbitrary backend — throwing or not — the in-memory
collection keeps the mutation that was applied before the flush (the
pushed entry, the in-place update of the found record, the filtered
remainder); and for an arbitrary backend whose save throws, each of the
three operations propagates that error out of the store instead of
returning its success-shaped result. -/
theorem C3_local_backend_contains_flush_failure :
    ∀ (loaded : List PasswordEntry) (setItem : List IPasswordEntry → Except String Unit)
      (m : PasswordManager) (website username password : String)
      (notes : Option String) (id : String) (d : UpdateData) (now : Nat),
    ((PasswordManager.addPassword (localStorageBackend loaded setItem) m
        website username password notes now).snd.isOk = true)
    ∧ ((PasswordManager.updatePassword (localStorageBackend loaded setItem) m
        id d now).snd.isOk = true)
    ∧ ((PasswordManager.deletePassword (localStorageBackend loaded setItem) m
        id).snd.isOk = true)
    ∧ (∀ svc : IStorageService,
        (PasswordManager.addPassword svc m website username password notes now).fst.passwords =
        m.passwords ++ [PasswordEntry.construct website username password notes none now])
    ∧ (∀ svc : IStorageService,
        (PasswordManager.updatePassword svc m id d now).fst.passwords =
        match m.passwords.find? (fun p => p.id = id) with
        | none => m.passwords
        | some _ => updateFirstMatch m.passwords id d now)
    ∧ (∀ svc : IStorageService,
        (PasswordManager.deletePassword svc m id).fst.passwords =
        m.passwords.filter (fun p => !(p.id = id)))
    ∧ (∀ (svc : IStorageService) (err : String),
        svc.savePasswords (m.passwords ++
          [PasswordEntry.construct website username password notes none now]) =
          Except.error err →
        (PasswordManager.addPassword svc m website username password notes now).snd =
          Except.error err)
    ∧ (∀ (svc : IStorageService) (err : String) (q : PasswordEntry),
        m.passwords.find? (fun p => p.id = id) = some q →
        svc.savePasswords (updateFirstMatch m.passwords id d now) = Except.error err →
        (PasswordManager.updatePassword svc m id d now).snd = Except.error err)
    ∧ (∀ (svc : IStorageService) (err : String),
        (m.passwords.filter (fun p => !(p.id = id))).length < m.passwords.length →
        svc.savePasswords (m.passwords.filter (fun p => !(p.id = id))) = Except.error err →
        (PasswordManager.deletePassword svc m id).snd = Except.error err) := by
  intro loaded setItem m website username password notes id d now
  have hsave : ∀ ps : List PasswordEntry,
      LocalStorageService.savePasswords setItem ps = Except.ok () := by
    intro ps
    unfold LocalStorageService.savePasswords
    cases setItem (ps.map PasswordEntry.toJSON) <;> rfl
  refine ⟨?_, ?_, ?_, ?_, ?_, ?_, ?_, ?_, ?_⟩
  · unfold PasswordManager.addPassword PasswordManager.savePasswords localStorageBackend
    simp only [hsave]
    rfl
  · unfold PasswordManager.updatePassword PasswordManager.savePasswords localStorageBackend
    cases m.passwords.find? (fun p => p.id = id) with
    | none => rfl
    | some p => simp only [hsave]; rfl
  · unfold PasswordManager.deletePassword PasswordManager.savePasswords localStorageBackend
    by_cases hlen : (m.passwords.filter (fun p => !(p.id = id))).length < m.passwords.length
    · rw [if_pos hlen]
      simp only [hsave]
      rfl
    · rw [if_neg hlen]
      rfl
  · intro svc
    unfold PasswordManager.addPassword PasswordManager.savePasswords
    cases h : svc.savePasswords (m.passwords ++
      [PasswordEntry.construct website username password notes none now]) <;> simp [h]
  · intro svc
    unfold PasswordManager.updatePassword PasswordManager.savePasswords
    cases hf : m.passwords.find? (fun p => p.id = id) with
    | none => rfl
    | some p =>
      cases h : svc.savePasswords (updateFirstMatch m.passwords id d now) <;> simp [h]
  · intro svc
    unfold PasswordManager.deletePassword PasswordManager.savePasswords
    by_cases hlen : (m.passwords.filter (fun p => !(p.id = id))).length < m.passwords.length
    · rw [if_pos hlen]
      cases h : svc.savePasswords (m.passwords.filter (fun p => !(p.id = id))) <;> simp [h]
    · rw [if_neg hlen]
  · intro svc err herr
    unfold PasswordManager.addPassword PasswordManager.savePasswords
    simp only [herr]
  · intro svc err q hfind herr
    unfold PasswordManager.updatePassword PasswordManager.savePasswords
    rw [hfind]
    simp only [herr]
  · intro svc err hlen herr
    unfold PasswordManager.deletePassword PasswordManager.savePasswords
    rw [if_pos hlen]
    simp only [herr]

/-- Witness for C3's error-propagation conjuncts: on the store holding
`noteEntry` (id "1") and the always-throwing backend, all three operations
surface "QuotaExceededError" (add and update at instant 9). -/
theorem C3_local_backend_contains_flush_failure_witness :
    (PasswordManager.addPassword throwingBackend ⟨[noteEntry]⟩
      "x.com" "u" "pw" none 9).snd = Except.error "QuotaExceededError"
    ∧ (PasswordManager.updatePassword throwingBackend ⟨[noteEntry]⟩
      "1" witnessPartial 9).snd = Except.error "QuotaExceededError"
    ∧ (PasswordManager.deletePassword throwingBackend ⟨[noteEntry]⟩
      "1").snd = Except.error "QuotaExceededError" := by
  obtain ⟨-, -, -, -, -, -, hadd, hupd, hdel⟩ :=
    C3_local_backend_contains_flush_failure [] (fun _ => Except.ok ())
      ⟨[noteEntry]⟩ "x.com" "u" "pw" none "1" witnessPartial 9
  exact ⟨hadd throwingBackend "QuotaExceededError" rfl,
    hupd throwingBackend "QuotaExceededError" noteEntry (by decide) rfl,
    hdel throwingBackend "QuotaExceededError" (by decide) rfl⟩

/-- Claim C4, counterexample: the alphabet formed by the four enabled
category sets has 88 characters (26 + 26 + 10 + 26 symbols), not the 94 the
claim asserts. -/
theorem C4_full_alphabet_is_88_not_94 :
    (getCharacterSet ⟨16, true, true, true, true⟩).length = 88
    ∧ (getCharacterSet ⟨16, true, true, true, true⟩).length ≠ 94 := by
  refine ⟨by decide, by decide⟩

/-- Claim C4, amended: with all four categories enabled and length 16,
every draw of the random source yields a string of exactly 16 characters,
each belonging to the (88-character) alphabet formed by the four enabled
category sets. -/
theorem C4_generate_length_and_alphabet :
    ∀ randoms : Nat → Nat,
    (generatePassword ⟨16, true, true, true, true⟩ randoms).length = 16
    ∧ ∀ c ∈ (generatePassword ⟨16, true, true, true, true⟩ randoms).toList,
        c ∈ (getCharacterSet ⟨16, true, true, true, true⟩).toList := by
  intro randoms
  constructor
  · unfold generatePassword
    show ((List.range 16).map _).length = 16
    simp
  · intro c hc
    unfold generatePassword at hc
    simp only [String.toList] at hc
    obtain ⟨i, hi, rfl⟩ := List.mem_map.mp hc
    apply getD_mem_of_lt
    exact Nat.mod_lt _ (by decide :
      0 < (getCharacterSet ⟨16, true, true, true, true⟩).toList.length)

/-- Claim C5, counterexample: the records "aaa"/"bbb" with notes "git" are
missed by the local search for "git" but returned by the API variant, so
the two search operations are not identical. -/
theorem C5_api_search_not_identical_to_local :
    PasswordManager.searchPasswords ⟨[noteEntry]⟩ "git" = []
    ∧ PasswordAPIService.searchPasswords [noteEntry] "git" = [noteEntry] := by
  refine ⟨by decide, by decide⟩

/-- Claim C5, amended: an empty or whitespace-only term makes both search
variants return the full collection; any other term makes the local search
return exactly the records whose `website` or `username` contains the term
as a case-insensitive substring, while the API variant additionally
matches the `notes` field — so the two variants agree except on records
reachable only through `notes`. -/
theorem C5_search_semantics :
    ∀ (m : PasswordManager) (fetched : List PasswordEntry) (term : String),
    PasswordManager.searchPasswords m term =
      (if jsTrim term = "" then m.getAllPasswords
       else m.passwords.filter (fun p =>
         ciContains p.website term || ciContains p.username term))
    ∧ PasswordAPIService.searchPasswords fetched term =
      (if jsTrim term = "" then fetched
       else fetched.filter (fun p =>
         ciContains p.website term || ciContains p.username term ||
         (match p.notes with | some n => ciContains n term | none => false))) := by
  intro m fetched term
  constructor
  · unfold PasswordManager.searchPasswords ciContains
    rfl
  · unfold PasswordAPIService.searchPasswords ciContains
    rfl

/-- Claim C6, counterexample: `score("password")` is 45, not 35 — the
claimed value forgets the +10 uniqueness bonus (7 distinct characters out
of 8 exceeds 70% of the length). -/
theorem C6_score_password_is_45_not_35 :
    calculateStrength "password" = 45 ∧ calculateStrength "password" ≠ 35 := by
  have h : calculateStrength "password" = 45 := by
    rw [calculateStrength_eval]; decide
  exact ⟨h, by rw [h]; decide⟩

/-- Claim C6, amended: `score("")` = 0 and `score("password")` = 45
(20 length + 15 lowercase + 10 uniqueness), which classifies as Fair. -/
theorem C6_scores_and_band :
    calculateStrength "" = 0
    ∧ calculateStrength "password" = 45
    ∧ getStrengthLevel (calculateStrength "password") = "Fair" := by
  have h : calculateStrength "password" = 45 := by
    rw [calculateStrength_eval]; decide
  refine ⟨by rw [calculateStrength_eval]; decide, h, by rw [h]; rfl⟩

set_option maxRecDepth 8192 in
/-- Claim C7, counterexample: the claimed exact heuristic disagrees with
the program at `password90` (length 90, exactly 63 distinct characters).
The program's binary64 comparison computes `90 * 0.7 = 62.99999999999999…`
and awards the +10 uniqueness bonus (score 95: 40 length + 45 classes +
10), while the spec's exact "+10 if distinct exceeds 70% of length" does
not (63 > 63 is false; score 85). -/
theorem C7_binary64_bonus_diverges_at_length_90 :
    calculateStrength password90 = 95
    ∧ claimStrength password90 = 85
    ∧ password90.length = 90
    ∧ password90.toList.dedup.length = 63 := by
  refine ⟨?_, ?_, by decide, by decide⟩
  · rw [calculateStrength_eval]
    decide
  · have h : claimStrength password90 =
        min 100 ((if password90.length ≥ 8 then 20 else 0) +
          (if password90.length ≥ 12 then 10 else 0) +
          (if password90.length ≥ 16 then 10 else 0) +
          (if password90.toList.any isLowerAlpha then 15 else 0) +
          (if password90.toList.any isUpperAlpha then 15 else 0) +
          (if password90.toList.any isDigitChar then 15 else 0) +
          (if password90.toList.any isNonAlphanumeric then 15 else 0) +
          (if 7 * password90.length < 10 * password90.toList.dedup.length
            then 10 else 0)) := by
      unfold claimStrength
      simp only [claim_cond_iff]
    rw [h]
    decide

/-- Claim C7, amended: for every password string the score equals the
additive heuristic of the specification — stacked length bonuses at
8/12/16, +15 per character class present, the total clamped to [0, 100] —
with the one proviso the counterexample forces: the +10 uniqueness bonus
holds when the distinct-character count exceeds the binary64 product
`length * 0.7` (at most lengths this is "exceeds 70% of the length", but at
lengths such as 90, 170, 180 the rounded product is just below the exact
70%, and exactly 70% distinct already earns the bonus). -/
theorem C7_score_is_additive_heuristic_binary64 :
    ∀ p : String, calculateStrength p = claimStrengthJs p := by
  intro p
  rw [calculateStrength_eval]
  unfold strengthEval claimStrengthJs
  simp only [jsMul07_lt_iff]
  by_cases hp : p = ""
  · subst hp
    rw [if_pos rfl]
    decide
  · rw [if_neg hp]

/-- Claim C8: for every record and partial, each present field (empty
string included) overwrites, each absent field is untouched, `id` and
`createdAt` are stable, and `updatedAt` is set to the call instant — also
for the empty partial, after which all content fields are unchanged while
`updatedAt` does not decrease (assuming the clock did not run backwards
since the previous stamp). -/
theorem C8_update_field_semantics :
    ∀ (e : PasswordEntry) (d : UpdateData) (now : Nat),
    e.updatedAt ≤ now → UpdateClaimHolds e d now := by
  intro e d now h
  exact ⟨rfl, rfl, rfl, rfl, rfl, rfl, rfl, rfl, rfl, rfl, rfl, h⟩

/-- Witness for C8 at the record constructed at instant 3, a partial that
sets `website` to `""` and `password` to `"x"`, and call instant 5. -/
theorem C8_update_field_semantics_witness :
    witnessEntry.updatedAt ≤ 5 ∧ UpdateClaimHolds witnessEntry witnessPartial 5 :=
  ⟨by decide, C8_update_field_semantics witnessEntry witnessPartial 5 (by decide)⟩

/-- Claim C9: `getCharacterSet` with all four category flags false returns
exactly the 26-letter lowercase alphabet (the documented fallback), for
every requested length. -/
theorem C9_zero_category_fallback_is_lowercase :
    ∀ len : Nat,
    getCharacterSet ⟨len, false, false, false, false⟩ = "abcdefghijklmnopqrstuvwxyz"
    ∧ (getCharacterSet ⟨len, false, false, false, false⟩).length = 26 := by
  intro len
  refine ⟨rfl, ?_⟩
  show ("abcdefghijklmnopqrstuvwxyz" : String).length = 26
  decide

/-- Claim C10, counterexample: two `addPassword` calls on the same store
during the same millisecond (`Date.now()` reads 7 twice) produce two
records that BOTH carry id "7" — ids are not unique within the store
instance. -/
theorem C10_same_millisecond_ids_collide :
    ((PasswordManager.addPassword okBackend
        (PasswordManager.addPassword okBackend ⟨[]⟩ "a.com" "u1" "p1" none 7).fst
        "b.com" "u2" "p2" none 7).fst).passwords.map PasswordEntry.id = ["7", "7"] := by
  decide

/-- Claim C10, amended: the record appended by `addPassword` is the one the
constructor builds at the call instant, and two records created at
distinct clock instants (distinct `Date.now()` readings) receive distinct
ids; only adds within the same millisecond collide. -/
theorem C10_distinct_instants_distinct_ids :
    ∀ (svc : IStorageService) (m : PasswordManager)
      (w1 u1 p1 w2 u2 p2 : String) (n1 n2 : Option String) (now1 now2 : Nat),
    now1 ≠ now2 →
    (PasswordManager.addPassword svc m w1 u1 p1 n1 now1).fst.passwords =
      m.passwords ++ [PasswordEntry.construct w1 u1 p1 n1 none now1]
    ∧ (PasswordEntry.construct w1 u1 p1 n1 none now1).id ≠
      (PasswordEntry.construct w2 u2 p2 n2 none now2).id := by
  intro svc m w1 u1 p1 w2 u2 p2 n1 n2 now1 now2 hne
  constructor
  · unfold PasswordManager.addPassword PasswordManager.savePasswords
    cases h : svc.savePasswords (m.passwords ++
      [PasswordEntry.construct w1 u1 p1 n1 none now1]) <;> simp [h]
  · show Nat.repr now1 ≠ Nat.repr now2
    intro hcontra
    exact hne (natRepr_injective hcontra)

/-- Witness for C10 at the always-succeeding backend, the empty store, and
the distinct instants 0 and 1. -/
theorem C10_distinct_instants_distinct_ids_witness :
    (0 : Nat) ≠ 1 ∧
    ((PasswordManager.addPassword okBackend ⟨[]⟩ "a.com" "u1" "p1" none 0).fst.passwords =
      [] ++ [PasswordEntry.construct "a.com" "u1" "p1" none none 0]
    ∧ (PasswordEntry.construct "a.com" "u1" "p1" none none 0).id ≠
      (PasswordEntry.construct "b.com" "u2" "p2" none none 1).id) :=
  ⟨by decide,
    C10_distinct_instants_distinct_ids okBackend ⟨[]⟩
      "a.com" "u1" "p1" "b.com" "u2" "p2" none none 0 1 (by decide)⟩

end SecurePass
